import Mathlib

/-!
Verification of the embedded OAuth2/OIDC identity provider of this
repository (backend/app/routes/idp.py and backend/app/main.py).

Python strings are modelled as lists of characters, SQLite tables as
lists of row structures, and each route handler as a pure function from
the database state and the request data to a response value and the new
database state.  The wall clock (time.time()) and the generated uuid4
values are passed in explicitly.  The library functions used by the
token codec (json.dumps/json.loads, base64url encode/decode,
HMAC-SHA256 with the configured secret, urllib.parse.quote) are
modelled as function fields of a Codec record; the handler definitions
use them exactly where the source calls them, and the theorems that
need round-trip facts about them take those facts as explicit
hypotheses (they hold of the real library functions).
-/

namespace IdP

/-- Python strings modelled as lists of characters. -/
abbrev Str := List Char

/-- Coerce a Lean string literal into the model string type. -/
def str (s : String) : Str := s.data

/-- The string contains no dot character. -/
abbrev NoDot (s : Str) : Prop := '.' ∉ s

/-- Embedding of Python token.split(".") (split on every dot, no limit). -/
def splitOnDot : Str → List Str
  | [] => [[]]
  | c :: rest =>
    if c = '.' then [] :: splitOnDot rest
    else
      match splitOnDot rest with
      | [] => [[c]]
      | x :: xs => (c :: x) :: xs

/-- Embedding of Python s.startswith(pat): first argument is the string,
second the candidate leading segment. -/
def startsWithStr : Str → Str → Bool
  | _, [] => true
  | [], _ :: _ => false
  | c :: s, d :: p => c == d && startsWithStr s p

/-- The JWT payload dictionaries this application signs and verifies:
the claim fields produced by oauth_token, with exp optional because
verify_jwt reads it via payload.get("exp", 0). -/
structure Claims where
  iss : Str
  sub : Str
  email : Str
  name : Str
  aud : Str
  iat : Int
  exp? : Option Int
deriving DecidableEq, Repr

/-- The library functions used by the token codec and the login
redirect, gathered as one record: b64enc models b64url (base64url
encode then strip padding), b64dec models
base64.urlsafe_b64decode(p + "=="), jsonEncP and jsonDecP model
json.dumps and json.loads on payload dictionaries, mac models
b64url(hmac.new(SECRET, msg, sha256).digest()) with the configured
secret baked in, and quote models urllib.parse.quote. -/
structure Codec where
  b64enc : Str → Str
  b64dec : Str → Option Str
  jsonEncP : Claims → Str
  jsonDecP : Str → Option Claims
  mac : Str → Str
  quote : Str → Str

/-- The fixed header json.dumps({"alg": "HS256", "typ": "JWT"}, separators=(",", ":")). -/
def headerJson : Str := str "\x7b\"alg\":\"HS256\",\"typ\":\"JWT\"\x7d"

/-- Embedding of sign_jwt: build b64url(header), b64url(payload), sign
"h.p" with HMAC, return "h.p.sig". -/
def sign_jwt (k : Codec) (payload : Claims) : Str :=
  let h := k.b64enc headerJson
  let p := k.b64enc (k.jsonEncP payload)
  let msg := h ++ '.' :: p
  let sig := k.mac msg
  msg ++ '.' :: sig

/-- The body of verify_jwt once the token has been split on dots: the
unpacking h, p, s = token.split(".") raises unless there are exactly
three parts, and every exception is caught and turned into None. -/
def checkParts (k : Codec) (now : Int) : List Str → Option Claims
  | [h, p, s] =>
    let msg := h ++ '.' :: p
    let sig := k.mac msg
    if s ≠ sig then none
    else
      match k.b64dec p with
      | none => none
      | some pj =>
        match k.jsonDecP pj with
        | none => none
        | some payload =>
          let exp := payload.exp?.getD 0
          if exp ≠ 0 ∧ exp < now then none else some payload
  | _ => none

/-- Embedding of verify_jwt: split the token on dots, recompute the
signature over "h.p", compare with the supplied third segment, decode
the payload, and reject when exp is truthy (nonzero) and strictly less
than the current time; any failure returns None rather than raising. -/
def verify_jwt (k : Codec) (now : Int) (token : Str) : Option Claims :=
  checkParts k now (splitOnDot token)

/-- Row of the users table. -/
structure UserRow where
  id : Nat
  username : Str
  password_hash : Str
  email : Str
  name : Str
  created_at : Int
deriving DecidableEq, Repr

/-- Row of the clients table. -/
structure ClientRow where
  client_id : Str
  client_secret : Str
  redirect_uri : Str
deriving DecidableEq, Repr

/-- Row of the auth_codes table. -/
structure CodeRow where
  code : Str
  user_id : Nat
  client_id : Str
  redirect_uri : Str
  expires_at : Int
deriving DecidableEq, Repr

/-- Row of the sessions table. -/
structure SessionRow where
  session_id : Str
  user_id : Nat
  expires_at : Int
deriving DecidableEq, Repr

/-- The SQLite database state: the four tables created by init_db.
fetchone after "select ... where col=?" is List.find?, and insert is
appending a row. -/
structure Db where
  users : List UserRow
  clients : List ClientRow
  auth_codes : List CodeRow
  sessions : List SessionRow
deriving DecidableEq, Repr

/-- The environment-derived configuration constants, plus the password
hasher hash_password (sha256 of salt + password, as a function). -/
structure Config where
  SESSION_TTL : Int
  CODE_TTL : Int
  TOKEN_TTL : Int
  ISSUER : Str
  hashPw : Str → Str

/-- Embedding of Python str(n) for the user id used as the sub claim. -/
def natToStr (n : Nat) : Str := (Nat.repr n).data

/-- Embedding of get_current_user: read the session_id cookie, look the
session up, treat it as absent when expired, then load the user row. -/
def get_current_user (db : Db) (now : Int) (cookie : Option Str) : Option UserRow :=
  match cookie with
  | none => none
  | some sid =>
    match db.sessions.find? (fun s => s.session_id == sid) with
    | none => none
    | some s =>
      if s.expires_at < now then none
      else db.users.find? (fun u => u.id == s.user_id)

/-- Result of POST /idp/login: the 401 failure page, a 302 redirect to
next with the session cookie set, or the JSON ok body with the cookie
set (when next is absent or empty). -/
inductive LoginResult where
  | errorPage (status : Nat)
  | redirect (url : Str) (cookie : Str)
  | okJson (cookie : Str)
deriving DecidableEq, Repr

/-- Embedding of idp_login: look the user up by username, compare the
stored hash with hash_password(password), on success insert a session
with expiry now + SESSION_TTL, set the cookie and redirect to next if
it is truthy. -/
def idp_login (cfg : Config) (db : Db) (now : Int) (newSid : Str)
    (username password : Str) (next? : Option Str) : LoginResult × Db :=
  match db.users.find? (fun u => u.username == username) with
  | none => (.errorPage 401, db)
  | some row =>
    if row.password_hash ≠ cfg.hashPw password then (.errorPage 401, db)
    else
      let db1 : Db := { db with
        sessions := db.sessions ++ [⟨newSid, row.id, now + cfg.SESSION_TTL⟩] }
      match next? with
      | some nx => if nx = [] then (.okJson newSid, db1) else (.redirect nx newSid, db1)
      | none => (.okJson newSid, db1)

/-- Result of GET /oauth/authorize: a 302 redirect or an HTTPException. -/
inductive AuthorizeResult where
  | redirectResp (url : Str)
  | errorResp (status : Nat) (detail : Str)
deriving DecidableEq, Repr

/-- The detail string of the invalid client / redirect_uri mismatch
HTTPException raised by oauth_authorize. -/
def authzMismatchDetail (c? : Option ClientRow) : Str :=
  str "invalid client or redirect_uri mismatch. Expected start with " ++
    (match c? with
     | some c => c.redirect_uri
     | none => str "unknown")

/-- Embedding of oauth_authorize: anonymous callers are redirected to
the login page with the quoted original request URL as next; then the
response_type is checked, the client row is loaded, the supplied
redirect_uri is checked with startswith against the registered one, an
auth code row with expiry now + CODE_TTL is inserted, and the user
agent is redirected to redirect_uri?code=..., with the state query
parameter appended only when state is truthy (present and non-empty). -/
def oauth_authorize (cfg : Config) (k : Codec) (db : Db) (now : Int) (newCode : Str)
    (cookie : Option Str) (reqUrl : Str)
    (client_id redirect_uri response_type : Str) (state : Option Str) :
    AuthorizeResult × Db :=
  match get_current_user db now cookie with
  | none => (.redirectResp (str "/idp/login?next=" ++ k.quote reqUrl), db)
  | some user =>
    if response_type ≠ str "code" then
      (.errorResp 400 (str "unsupported response_type"), db)
    else
      match db.clients.find? (fun c => c.client_id == client_id) with
      | none => (.errorResp 400 (authzMismatchDetail none), db)
      | some c =>
        if ¬ startsWithStr redirect_uri c.redirect_uri then
          (.errorResp 400 (authzMismatchDetail (some c)), db)
        else
          let db1 : Db := { db with
            auth_codes := db.auth_codes ++
              [⟨newCode, user.id, client_id, redirect_uri, now + cfg.CODE_TTL⟩] }
          let url := redirect_uri ++ str "?code=" ++ newCode ++
            (match state with
             | some st => if st = [] then [] else str "&state=" ++ st
             | none => [])
          (.redirectResp url, db1)

/-- The form fields of POST /oauth/token. -/
structure TokenReq where
  grant_type : Str
  code : Str
  client_id : Str
  client_secret : Str
  redirect_uri : Str
deriving DecidableEq, Repr

/-- Result of POST /oauth/token: the token response (token_type is
always Bearer), an HTTPException, or the 500 produced when the bound
user row is missing (the subscript of None raises after the code row
was already deleted and committed). -/
inductive TokenResult where
  | ok (access_token : Str) (expires_in : Int)
  | errorResp (status : Nat) (detail : Str)
  | serverError
deriving DecidableEq, Repr

/-- Embedding of oauth_token: check grant_type, load the client and
compare client_secret (the submitted redirect_uri is never compared
with anything), load the code row and reject when absent, bound to a
different client_id, or expired, then delete the code row and sign the
access token.  The user row is selected before the delete, so a
missing user still deletes the code and then fails. -/
def oauth_token (cfg : Config) (k : Codec) (db : Db) (now : Int) (req : TokenReq) :
    TokenResult × Db :=
  if req.grant_type ≠ str "authorization_code" then
    (.errorResp 400 (str "unsupported grant_type"), db)
  else
    match db.clients.find? (fun c => c.client_id == req.client_id) with
    | none => (.errorResp 401 (str "invalid client"), db)
    | some c =>
      if c.client_secret ≠ req.client_secret then
        (.errorResp 401 (str "invalid client"), db)
      else
        match db.auth_codes.find? (fun a => a.code == req.code) with
        | none => (.errorResp 400 (str "invalid code"), db)
        | some a =>
          if a.client_id ≠ req.client_id ∨ a.expires_at < now then
            (.errorResp 400 (str "invalid code"), db)
          else
            let db1 : Db := { db with
              auth_codes := db.auth_codes.filter (fun b => b.code != req.code) }
            match db.users.find? (fun u => u.id == a.user_id) with
            | none => (.serverError, db1)
            | some u =>
              let payload : Claims :=
                { iss := cfg.ISSUER, sub := natToStr u.id, email := u.email,
                  name := u.name, aud := req.client_id, iat := now,
                  exp? := some (now + cfg.TOKEN_TTL) }
              (.ok (sign_jwt k payload) cfg.TOKEN_TTL, db1)

/-- Result of the gatekeeper dependency on /api routes. -/
inductive GateResult where
  | denied (status : Nat)
  | admitted (identity : Str)
deriving DecidableEq, Repr

/-- Embedding of verify_security_pass in main.py: reject with 401 when
the X-Auth-Request-Email header is absent or empty, otherwise admit
and return that email; the Authorization header is only logged and
never verified. -/
def verify_security_pass (user_email : Option Str) (authorization : Option Str) :
    GateResult :=
  match user_email with
  | none => .denied 401
  | some e => if e = [] then .denied 401 else .admitted e

/-! Concrete sample data used by witnesses and counterexamples: the
seeded client and admin user of seed_data, a sample code row, and a
small concrete Codec instance (constant payload encoding, identity
base64, constant mac) that satisfies the round-trip hypotheses at the
sample values. -/

/-- Sample payload with expiry 10. -/
def demoClaims : Claims :=
  { iss := str "i", sub := str "1", email := str "e", name := str "n",
    aud := str "a", iat := 0, exp? := some 10 }

/-- Small concrete codec used to evaluate the handlers at sample inputs. -/
def demoCodec : Codec :=
  { b64enc := fun s => s
    b64dec := fun s => some s
    jsonEncP := fun _ => str "x"
    jsonDecP := fun _ => some demoClaims
    mac := fun _ => str "m"
    quote := fun s => s }

/-- Sample configuration with the default TTL values. -/
def demoCfg : Config :=
  { SESSION_TTL := 3600, CODE_TTL := 300, TOKEN_TTL := 1800,
    ISSUER := str "http://localhost:4180", hashPw := fun s => 'H' :: s }

/-- The seeded admin user, with the sample hash function applied. -/
def demoUser : UserRow :=
  { id := 1, username := str "admin", password_hash := 'H' :: str "password",
    email := str "admin@example.com", name := str "System Admin", created_at := 0 }

/-- The seeded client registration. -/
def demoClient : ClientRow :=
  { client_id := str "frontend-app", client_secret := str "frontend-secret",
    redirect_uri := str "http://localhost:3000" }

/-- A sample issued authorization code bound to the seeded client. -/
def demoCode : CodeRow :=
  { code := str "c1", user_id := 1, client_id := str "frontend-app",
    redirect_uri := str "http://localhost:3000/cb", expires_at := 1000 }

/-- A sample login session for the admin user, expiring at 100. -/
def demoSession : SessionRow :=
  { session_id := str "sid1", user_id := 1, expires_at := 100 }

/-- Database holding the seeded user and client plus the sample code. -/
def demoDb : Db :=
  { users := [demoUser], clients := [demoClient],
    auth_codes := [demoCode], sessions := [] }

/-- The same database after the sample code has been consumed. -/
def demoDbAfter : Db :=
  { users := [demoUser], clients := [demoClient],
    auth_codes := [], sessions := [] }

/-- Database with a live session for the admin user and no codes. -/
def demoDbAuthz : Db :=
  { users := [demoUser], clients := [demoClient],
    auth_codes := [], sessions := [demoSession] }

/-- A token request for the sample code with the correct client secret
but a redirect_uri different from the one bound at issuance. -/
def demoTokenReq : TokenReq :=
  { grant_type := str "authorization_code", code := str "c1",
    client_id := str "frontend-app", client_secret := str "frontend-secret",
    redirect_uri := str "http://evil.example" }

/-! Lemmas about splitOnDot. -/

/-- Splitting a dot-free string yields that one segment. -/
theorem splitOnDot_of_noDot (a : Str) (ha : NoDot a) : splitOnDot a = [a] := by
  induction a with
  | nil => rfl
  | cons c rest ih =>
    have hc : ¬ c = '.' := fun h => ha (h ▸ List.mem_cons_self c rest)
    have hrest : NoDot rest := fun h => ha (List.mem_cons_of_mem c h)
    simp [splitOnDot, hc, ih hrest]

/-- Splitting at the first dot after a dot-free leading segment. -/
theorem splitOnDot_append (a t : Str) (ha : NoDot a) :
    splitOnDot (a ++ '.' :: t) = a :: splitOnDot t := by
  induction a with
  | nil => simp [splitOnDot]
  | cons c rest ih =>
    have hc : ¬ c = '.' := fun h => ha (h ▸ List.mem_cons_self c rest)
    have hrest : NoDot rest := fun h => ha (List.mem_cons_of_mem c h)
    have ih' := ih hrest
    simp only [List.cons_append, splitOnDot, if_neg hc]
    simp only [List.append_eq] at ih' ⊢
    rw [ih']

/-- A token built from three dot-free segments splits back into them. -/
theorem splitOnDot_three (h p s : Str) (hh : NoDot h) (hp : NoDot p) (hs : NoDot s) :
    splitOnDot ((h ++ '.' :: p) ++ '.' :: s) = [h, p, s] := by
  rw [List.append_assoc, List.cons_append, splitOnDot_append h (p ++ '.' :: s) hh,
    splitOnDot_append p s hp, splitOnDot_of_noDot s hs]

/-- Unfolding of sign_jwt into its three segments. -/
theorem sign_jwt_eq (k : Codec) (c : Claims) :
    sign_jwt k c =
      (k.b64enc headerJson ++ '.' :: k.b64enc (k.jsonEncP c)) ++
        '.' :: k.mac (k.b64enc headerJson ++ '.' :: k.b64enc (k.jsonEncP c)) := rfl

/-- Claim C6: for every claims map whose exp is strictly in the future,
verifying the token produced by sign_jwt with the same secret returns
the claims unchanged, and once the clock passes exp verification of
that same token returns invalid.  The hypotheses state the round-trip
and dot-freeness facts of the base64url/json library functions at the
values involved. -/
theorem verify_sign_roundtrip (k : Codec) (c : Claims) (e now : Int)
    (hh : NoDot (k.b64enc headerJson))
    (hp : NoDot (k.b64enc (k.jsonEncP c)))
    (hs : NoDot (k.mac (k.b64enc headerJson ++ '.' :: k.b64enc (k.jsonEncP c))))
    (hb : k.b64dec (k.b64enc (k.jsonEncP c)) = some (k.jsonEncP c))
    (hj : k.jsonDecP (k.jsonEncP c) = some c)
    (he : c.exp? = some e) (hfut : now < e) (hnow : 0 ≤ now) :
    verify_jwt k now (sign_jwt k c) = some c ∧
    ∀ later, e < later → verify_jwt k later (sign_jwt k c) = none := by
  have hcp : ∀ t : Int, verify_jwt k t (sign_jwt k c) =
      if e ≠ 0 ∧ e < t then none else some c := by
    intro t
    show checkParts k t (splitOnDot (sign_jwt k c)) = _
    rw [sign_jwt_eq, splitOnDot_three _ _ _ hh hp hs]
    simp only [checkParts, ne_eq, not_true_eq_false, if_false, hb, hj, he,
      Option.getD_some]
  refine ⟨?_, ?_⟩
  · rw [hcp now, if_neg]
    rintro ⟨-, hlt⟩
    omega
  · intro later hlater
    rw [hcp later, if_pos]
    exact ⟨by omega, hlater⟩

/-- Claim C6 witness: concrete round trip at now = 3, exp = 10, and
rejection at now = 11. -/
theorem verify_sign_roundtrip_witness :
    verify_jwt demoCodec 3 (sign_jwt demoCodec demoClaims) = some demoClaims ∧
    verify_jwt demoCodec 11 (sign_jwt demoCodec demoClaims) = none := by
  have h := verify_sign_roundtrip demoCodec demoClaims 10 3
    (by decide) (by decide) (by decide) rfl rfl rfl (by decide) (by decide)
  exact ⟨h.1, h.2 11 (by decide)⟩

/-- Claim C5 counterexample: at the boundary where exp equals the
current time the verifier still accepts the token, although the claim
demands invalidity whenever exp is less than or equal to the current
time. -/
theorem verify_jwt_exp_boundary_cex :
    verify_jwt demoCodec 10 (sign_jwt demoCodec demoClaims) = some demoClaims ∧
    demoClaims.exp? = some 10 ∧ ((10 : Int) ≤ 10) := ⟨by decide, rfl, by decide⟩

/-- Claim C5 (amended): verification is a total function into an
optional claims value, and it returns invalid exactly when the token
does not split into three dot-separated segments, or the recomputed
signature differs from the supplied third segment, or the payload
fails to decode, or the decoded exp value (defaulted to 0 when absent)
is nonzero and strictly less than the current time. -/
theorem verify_jwt_invalid_iff (k : Codec) (now : Int) (token : Str) :
    verify_jwt k now token = none ↔
      ¬ ∃ h p s c, splitOnDot token = [h, p, s] ∧
          s = k.mac (h ++ '.' :: p) ∧
          (k.b64dec p).bind k.jsonDecP = some c ∧
          ¬ (c.exp?.getD 0 ≠ 0 ∧ c.exp?.getD 0 < now) := by
  unfold verify_jwt
  generalize splitOnDot token = parts
  match parts with
  | [] => simp [checkParts]
  | [a] => simp [checkParts]
  | [a, b] => simp [checkParts]
  | a :: b :: c :: d :: rest => simp [checkParts]
  | [h, p, s] =>
    by_cases hsg : s = k.mac (h ++ '.' :: p)
    · subst hsg
      simp only [checkParts, ne_eq, not_true_eq_false, if_false]
      cases hb : k.b64dec p with
      | none => simp [hb]
      | some pj =>
        cases hj : k.jsonDecP pj with
        | none => simp [hb, hj]
        | some c =>
          by_cases hex : c.exp?.getD 0 ≠ 0 ∧ c.exp?.getD 0 < now
          · simp [hb, hj, hex]
          · simp [hb, hj, hex]
    · simp only [checkParts, ne_eq, if_pos hsg]
      simp [hsg]

/-- Claim C5 witness: the characterization applied to a concrete
two-segment token, which is therefore invalid. -/
theorem verify_jwt_invalid_iff_witness :
    verify_jwt demoCodec 0 (str "garbage.only") = none := by
  refine (verify_jwt_invalid_iff demoCodec 0 (str "garbage.only")).mpr ?_
  rintro ⟨h, p, s, c, hsplit, -, -, -⟩
  have htwo : splitOnDot (str "garbage.only") = [str "garbage", str "only"] := by decide
  rw [htwo] at hsplit
  exact absurd hsplit (by simp)

/-- Claim C3 counterexample: a request to a protected route carrying a
bearer token that fails verification is still admitted, because the
gatekeeper only consults the X-Auth-Request-Email header. -/
theorem gate_admits_unverified_token_cex :
    verify_security_pass (some (str "attacker@example.com"))
        (some (str "Bearer garbage")) =
      .admitted (str "attacker@example.com") ∧
    verify_jwt demoCodec 0 (str "garbage") = none := ⟨by decide, by decide⟩

/-- Claim C3 (amended): the gatekeeper admits a request exactly when
the X-Auth-Request-Email header is present and non-empty, propagating
that email as the identity, and its outcome never depends on the
Authorization header, whose bearer token is never verified. -/
theorem verify_security_pass_header_only (ue a : Option Str) (e : Str) :
    (verify_security_pass ue a = .admitted e ↔ ue = some e ∧ e ≠ []) ∧
    (∀ a2, verify_security_pass ue a = verify_security_pass ue a2) := by
  refine ⟨?_, fun a2 => rfl⟩
  cases ue with
  | none => simp [verify_security_pass]
  | some x =>
    by_cases hx : x = []
    · simp [verify_security_pass, hx]
    · simp only [verify_security_pass, if_neg hx, GateResult.admitted.injEq,
        Option.some.injEq]
      constructor
      · rintro rfl
        exact ⟨rfl, hx⟩
      · rintro ⟨rfl, -⟩
        rfl

/-- Claim C3 witness: the amended characterization evaluated at a
concrete admitted request. -/
theorem verify_security_pass_header_only_witness :
    verify_security_pass (some (str "admin@example.com")) none =
      .admitted (str "admin@example.com") := by
  exact ((verify_security_pass_header_only (some (str "admin@example.com")) none
    (str "admin@example.com")).1).mpr ⟨rfl, by decide⟩

/-- The claims oauth_token signs for the sample exchange at now = 10. -/
def demoIssuedClaims : Claims :=
  { iss := demoCfg.ISSUER, sub := str "1", email := demoUser.email,
    name := demoUser.name, aud := str "frontend-app", iat := 10,
    exp? := some 1810 }

/-- Claim C2: the token endpoint never compares the submitted
redirect_uri with the one bound at issuance, so an exchange whose
redirect_uri differs from the bound one still succeeds and issues an
access token, with the code consumed. -/
theorem oauth_token_ignores_redirect_cex :
    oauth_token demoCfg demoCodec demoDb 10 demoTokenReq =
      (.ok (sign_jwt demoCodec demoIssuedClaims) 1800, demoDbAfter) ∧
    demoTokenReq.redirect_uri ≠ demoCode.redirect_uri := by decide

/-- Claim C10: a token-exchange request that fails with an HTTP error
response (unsupported grant_type, unknown client, wrong secret, or an
absent, client-mismatched or expired code) leaves the whole database,
and in particular the auth_codes table, unchanged. -/
theorem oauth_token_error_leaves_db (cfg : Config) (k : Codec) (db : Db) (now : Int)
    (req : TokenReq) (st : Nat) (d : Str)
    (h : (oauth_token cfg k db now req).1 = .errorResp st d) :
    (oauth_token cfg k db now req).2 = db := by
  unfold oauth_token at h ⊢
  by_cases hg : req.grant_type ≠ str "authorization_code"
  · rw [if_pos hg]
  · rw [if_neg hg] at h ⊢
    cases hc : db.clients.find? (fun c => c.client_id == req.client_id) with
    | none => simp only [hc]
    | some c =>
      simp only [hc] at h ⊢
      by_cases hsec : c.client_secret ≠ req.client_secret
      · rw [if_pos hsec]
      · rw [if_neg hsec] at h ⊢
        cases ha : db.auth_codes.find? (fun a => a.code == req.code) with
        | none => simp only [ha]
        | some a =>
          simp only [ha] at h ⊢
          by_cases hok : a.client_id ≠ req.client_id ∨ a.expires_at < now
          · rw [if_pos hok]
          · rw [if_neg hok] at h ⊢
            cases hu : db.users.find? (fun u => u.id == a.user_id) with
            | none =>
              simp only [hu] at h
              exact TokenResult.noConfusion h
            | some u =>
              simp only [hu] at h
              exact TokenResult.noConfusion h

/-- Claim C10 witness: the exchange of the expired sample code fails
and leaves the database untouched. -/
theorem oauth_token_error_leaves_db_witness :
    (oauth_token demoCfg demoCodec demoDb 2000 demoTokenReq).2 = demoDb := by
  exact oauth_token_error_leaves_db demoCfg demoCodec demoDb 2000 demoTokenReq
    400 (str "invalid code") (by decide)

/-- Claim C4: a successful exchange deletes the code, a second
exchange of the same request fails with the invalid-code error, and
any exchange of a code whose expiry timestamp lies before the current
time fails to produce a token. -/
theorem oauth_token_single_use (cfg : Config) (k : Codec) (db : Db) (now : Int)
    (req : TokenReq) (tok : Str) (ttl : Int) (db' : Db)
    (h : oauth_token cfg k db now req = (.ok tok ttl, db')) :
    db'.auth_codes.find? (fun a => a.code == req.code) = none ∧
    (∀ now2, (oauth_token cfg k db' now2 req).1 = .errorResp 400 (str "invalid code")) ∧
    (∀ db2 now2 req2 a, db2.auth_codes.find? (fun b => b.code == req2.code) = some a →
      a.expires_at < now2 →
      ∀ t ttl2, (oauth_token cfg k db2 now2 req2).1 ≠ .ok t ttl2) := by
  have third : ∀ db2 now2 req2 a,
      db2.auth_codes.find? (fun b => b.code == req2.code) = some a →
      a.expires_at < now2 →
      ∀ t ttl2, (oauth_token cfg k db2 now2 req2).1 ≠ .ok t ttl2 := by
    intro db2 now2 req2 a2 hfind hexp t ttl2 hcontra
    unfold oauth_token at hcontra
    by_cases hg2 : req2.grant_type ≠ str "authorization_code"
    · rw [if_pos hg2] at hcontra
      simp at hcontra
    · rw [if_neg hg2] at hcontra
      cases hc2 : db2.clients.find? (fun c => c.client_id == req2.client_id) with
      | none => simp [hc2] at hcontra
      | some c2 =>
        simp only [hc2] at hcontra
        by_cases hsec2 : c2.client_secret ≠ req2.client_secret
        · rw [if_pos hsec2] at hcontra
          simp at hcontra
        · rw [if_neg hsec2] at hcontra
          simp only [hfind] at hcontra
          rw [if_pos (Or.inr hexp)] at hcontra
          simp at hcontra
  unfold oauth_token at h
  by_cases hg : req.grant_type ≠ str "authorization_code"
  · rw [if_pos hg] at h
    simp at h
  · rw [if_neg hg] at h
    cases hc : db.clients.find? (fun c => c.client_id == req.client_id) with
    | none => simp [hc] at h
    | some c =>
      simp only [hc] at h
      by_cases hsec : c.client_secret ≠ req.client_secret
      · rw [if_pos hsec] at h
        simp at h
      · rw [if_neg hsec] at h
        cases ha : db.auth_codes.find? (fun a => a.code == req.code) with
        | none => simp [ha] at h
        | some a =>
          simp only [ha] at h
          by_cases hok : a.client_id ≠ req.client_id ∨ a.expires_at < now
          · rw [if_pos hok] at h
            simp at h
          · rw [if_neg hok] at h
            cases hu : db.users.find? (fun u => u.id == a.user_id) with
            | none =>
              simp only [hu] at h
              simp at h
            | some u =>
              simp only [hu] at h
              have hdb' : db' =
                  { db with auth_codes := db.auth_codes.filter (fun b => b.code != req.code) } :=
                (congrArg Prod.snd h).symm
              have hcl : db'.clients = db.clients := by rw [hdb']
              have hac : db'.auth_codes = db.auth_codes.filter (fun b => b.code != req.code) := by
                rw [hdb']
              have hnone : db'.auth_codes.find? (fun a1 => a1.code == req.code) = none := by
                rw [hac, List.find?_eq_none]
                intro x hx
                simpa using (List.mem_filter.mp hx).2
              refine ⟨hnone, ?_, third⟩
              intro now2
              unfold oauth_token
              rw [if_neg hg, hcl]
              simp only [hc]
              rw [if_neg hsec]
              simp only [hnone]

/-- Claim C4 witness: after the concrete successful exchange the
sample code is gone and a second identical exchange fails with the
invalid-code error. -/
theorem oauth_token_single_use_witness :
    demoDbAfter.auth_codes.find? (fun a => a.code == demoTokenReq.code) = none ∧
    (oauth_token demoCfg demoCodec demoDbAfter 20 demoTokenReq).1 =
      .errorResp 400 (str "invalid code") := by
  have h := oauth_token_single_use demoCfg demoCodec demoDb 10 demoTokenReq
    (sign_jwt demoCodec demoIssuedClaims) 1800 demoDbAfter (by decide)
  exact ⟨h.1, h.2.1 20⟩

/-- Claim C1: the authorize endpoint validates the supplied
redirect_uri with startswith against the registered one, so a URI that
is a strict extension of the registered URI — not character-for-character
identical to it — is accepted and receives a code. -/
theorem oauth_authorize_accepts_nonexact_redirect :
    (oauth_authorize demoCfg demoCodec demoDbAuthz 50 (str "deadbeef")
        (some (str "sid1")) (str "http://localhost:4180/oauth/authorize")
        (str "frontend-app") (str "http://localhost:3000.evil.example")
        (str "code") none).1 =
      .redirectResp (str "http://localhost:3000.evil.example?code=deadbeef") ∧
    str "http://localhost:3000.evil.example" ≠ demoClient.redirect_uri := by decide

/-- Claim C7: with no valid session — cookie absent, session id
unknown, or session expiry passed — the authorize endpoint neither
errors nor redirects to the client redirect_uri: it redirects to the
login page with the quoted original request URL as the next target,
leaving the database unchanged. -/
theorem oauth_authorize_anonymous_to_login (cfg : Config) (k : Codec) (db : Db)
    (now : Int) (newCode : Str) (cookie : Option Str) (reqUrl : Str)
    (client_id redirect_uri response_type : Str) (state : Option Str)
    (h : cookie = none ∨
      (∃ sid, cookie = some sid ∧
        db.sessions.find? (fun s => s.session_id == sid) = none) ∨
      (∃ sid srow, cookie = some sid ∧
        db.sessions.find? (fun s => s.session_id == sid) = some srow ∧
        srow.expires_at < now)) :
    oauth_authorize cfg k db now newCode cookie reqUrl client_id redirect_uri
        response_type state =
      (.redirectResp (str "/idp/login?next=" ++ k.quote reqUrl), db) := by
  have hanon : get_current_user db now cookie = none := by
    rcases h with rfl | ⟨sid, rfl, hfind⟩ | ⟨sid, srow, rfl, hfind, hexp⟩
    · rfl
    · simp [get_current_user, hfind]
    · simp [get_current_user, hfind, if_pos hexp]
  unfold oauth_authorize
  rw [hanon]

/-- Claim C7 witness: repeating the authorize request after the sample
session has expired redirects to the login page. -/
theorem oauth_authorize_anonymous_to_login_witness :
    oauth_authorize demoCfg demoCodec demoDbAuthz 200 (str "c2") (some (str "sid1"))
        (str "http://localhost:4180/oauth/authorize?client_id=frontend-app")
        (str "frontend-app") (str "http://localhost:3000") (str "code") none =
      (.redirectResp (str "/idp/login?next=" ++
        demoCodec.quote (str "http://localhost:4180/oauth/authorize?client_id=frontend-app")),
       demoDbAuthz) := by
  exact oauth_authorize_anonymous_to_login demoCfg demoCodec demoDbAuthz 200 (str "c2")
    (some (str "sid1")) (str "http://localhost:4180/oauth/authorize?client_id=frontend-app")
    (str "frontend-app") (str "http://localhost:3000") (str "code") none
    (Or.inr (Or.inr ⟨str "sid1", demoSession, rfl, by decide, by decide⟩))

/-- Claim C9 counterexample: with no state parameter the user agent is
redirected to redirect_uri?code=... with no state query parameter at
all, not to redirect_uri?code=...&state= with an empty state. -/
theorem oauth_authorize_state_omitted_cex :
    (oauth_authorize demoCfg demoCodec demoDbAuthz 50 (str "deadbeef")
        (some (str "sid1")) (str "u") (str "frontend-app")
        (str "http://localhost:3000") (str "code") none).1 =
      .redirectResp (str "http://localhost:3000?code=deadbeef") ∧
    str "http://localhost:3000?code=deadbeef" ≠
      str "http://localhost:3000?code=deadbeef&state=" := by decide

/-- Claim C9 (amended): a successful authorize request persists a code
row bound to (user id, client_id, redirect_uri) with expiry
now + CODE_TTL, and redirects to redirect_uri?code=newCode, appending
the state parameter verbatim exactly when a non-empty state was
supplied; when state is absent or empty no state parameter appears. -/
theorem oauth_authorize_success (cfg : Config) (k : Codec) (db : Db) (now : Int)
    (newCode : Str) (cookie : Option Str) (reqUrl : Str)
    (client_id redirect_uri : Str) (state : Option Str)
    (user : UserRow) (c : ClientRow)
    (hu : get_current_user db now cookie = some user)
    (hc : db.clients.find? (fun x => x.client_id == client_id) = some c)
    (hr : startsWithStr redirect_uri c.redirect_uri = true) :
    (⟨newCode, user.id, client_id, redirect_uri, now + cfg.CODE_TTL⟩ : CodeRow) ∈
      (oauth_authorize cfg k db now newCode cookie reqUrl client_id redirect_uri
        (str "code") state).2.auth_codes ∧
    ((state = none ∨ state = some []) →
      (oauth_authorize cfg k db now newCode cookie reqUrl client_id redirect_uri
        (str "code") state).1 =
        .redirectResp (redirect_uri ++ str "?code=" ++ newCode)) ∧
    (∀ st, state = some st → st ≠ [] →
      (oauth_authorize cfg k db now newCode cookie reqUrl client_id redirect_uri
        (str "code") state).1 =
        .redirectResp (redirect_uri ++ str "?code=" ++ newCode ++ str "&state=" ++ st)) := by
  have hres : oauth_authorize cfg k db now newCode cookie reqUrl client_id redirect_uri
      (str "code") state =
      (.redirectResp (redirect_uri ++ str "?code=" ++ newCode ++
        (match state with
         | some st => if st = [] then [] else str "&state=" ++ st
         | none => [])),
       { db with auth_codes := db.auth_codes ++
          [⟨newCode, user.id, client_id, redirect_uri, now + cfg.CODE_TTL⟩] }) := by
    unfold oauth_authorize
    simp only [hu]
    rw [if_neg (not_not_intro rfl)]
    simp only [hc]
    rw [if_neg (not_not_intro hr)]
  refine ⟨?_, ?_, ?_⟩
  · rw [hres]
    exact List.mem_append_right _ (List.mem_singleton.mpr rfl)
  · rintro (rfl | rfl) <;> rw [hres] <;> simp
  · intro st hst hne
    subst hst
    rw [hres]
    simp [hne]

/-- Claim C9 witness: the amended statement evaluated at a concrete
request carrying the state xyz. -/
theorem oauth_authorize_success_witness :
    (⟨str "deadbeef", demoUser.id, str "frontend-app", str "http://localhost:3000",
        50 + demoCfg.CODE_TTL⟩ : CodeRow) ∈
      (oauth_authorize demoCfg demoCodec demoDbAuthz 50 (str "deadbeef")
        (some (str "sid1")) (str "u") (str "frontend-app")
        (str "http://localhost:3000") (str "code") (some (str "xyz"))).2.auth_codes ∧
    (oauth_authorize demoCfg demoCodec demoDbAuthz 50 (str "deadbeef")
        (some (str "sid1")) (str "u") (str "frontend-app")
        (str "http://localhost:3000") (str "code") (some (str "xyz"))).1 =
      .redirectResp (str "http://localhost:3000" ++ str "?code=" ++ str "deadbeef" ++
        str "&state=" ++ str "xyz") := by
  have h := oauth_authorize_success demoCfg demoCodec demoDbAuthz 50 (str "deadbeef")
    (some (str "sid1")) (str "u") (str "frontend-app") (str "http://localhost:3000")
    (some (str "xyz")) demoUser demoClient (by decide) (by decide) (by decide)
  exact ⟨h.1, h.2.2 (str "xyz") rfl (by decide)⟩

/-! Lemmas about List.find? used for the login claim. -/

/-- find? over an append skips a block with no match. -/
theorem find?_append_of_none {α : Type} (l1 l2 : List α) (p : α → Bool)
    (h : l1.find? p = none) : (l1 ++ l2).find? p = l2.find? p := by
  induction l1 with
  | nil => rfl
  | cons x xs ih =>
    cases hx : p x with
    | true =>
      rw [List.find?_cons_of_pos _ hx] at h
      exact Option.noConfusion h
    | false =>
      rw [List.find?_cons_of_neg _ (by simp [hx] : ¬ p x = true)] at h
      rw [List.cons_append, List.find?_cons_of_neg _ (by simp [hx] : ¬ p x = true)]
      exact ih h

/-- With pairwise-distinct ids, find? by a member row's id returns that row. -/
theorem find?_id_of_nodup (l : List UserRow) (row : UserRow)
    (hmem : row ∈ l) (hnd : (l.map (fun u => u.id)).Nodup) :
    l.find? (fun u => u.id == row.id) = some row := by
  induction l with
  | nil => cases hmem
  | cons x xs ih =>
    have hnd' : (x.id :: xs.map (fun u => u.id)).Nodup := by simpa using hnd
    rcases List.mem_cons.mp hmem with rfl | hmem'
    · exact List.find?_cons_of_pos _ (by simp)
    · have hx : x.id ∉ xs.map (fun u => u.id) := (List.nodup_cons.mp hnd').1
      have hxne : ¬ ((x.id == row.id) = true) := by
        simp only [beq_iff_eq]
        intro hcon
        exact hx (hcon ▸ List.mem_map_of_mem _ hmem')
      rw [@List.find?_cons_of_neg UserRow (fun u => u.id == row.id) x xs hxne]
      exact ih hmem' (List.nodup_cons.mp hnd').2

/-- Claim C8: with a registered user whose stored hash matches the
hash of the submitted password, login creates a session whose
resolution (while unexpired) yields that same user and does not
produce the 401 page; with an unknown username or a password whose
hash differs from the stored one, login returns the 401 page and the
database — in particular the sessions table — is unchanged. -/
theorem idp_login_correct (cfg : Config) (db : Db) (now : Int) (newSid : Str)
    (username password : Str) (next? : Option Str) :
    (∀ row, db.users.find? (fun u => u.username == username) = some row →
      row.password_hash = cfg.hashPw password →
      (∀ s ∈ db.sessions, s.session_id ≠ newSid) →
      (db.users.map (fun u => u.id)).Nodup →
      (idp_login cfg db now newSid username password next?).1 ≠ .errorPage 401 ∧
      (⟨newSid, row.id, now + cfg.SESSION_TTL⟩ : SessionRow) ∈
        (idp_login cfg db now newSid username password next?).2.sessions ∧
      (∀ now2, now2 ≤ now + cfg.SESSION_TTL →
        get_current_user (idp_login cfg db now newSid username password next?).2
          now2 (some newSid) = some row)) ∧
    ((db.users.find? (fun u => u.username == username) = none ∨
      (∃ row, db.users.find? (fun u => u.username == username) = some row ∧
        row.password_hash ≠ cfg.hashPw password)) →
      idp_login cfg db now newSid username password next? = (.errorPage 401, db)) := by
  constructor
  · intro row hfind hhash hfresh hnd
    have hdb1 : (idp_login cfg db now newSid username password next?).2 =
        { db with sessions := db.sessions ++ [⟨newSid, row.id, now + cfg.SESSION_TTL⟩] } := by
      unfold idp_login
      simp only [hfind]
      rw [if_neg (not_not_intro hhash)]
      cases next? with
      | none => rfl
      | some nx =>
        by_cases hnx : nx = [] <;> simp [hnx]
    have hne : (idp_login cfg db now newSid username password next?).1 ≠ .errorPage 401 := by
      unfold idp_login
      simp only [hfind]
      rw [if_neg (not_not_intro hhash)]
      cases next? with
      | none => simp
      | some nx =>
        by_cases hnx : nx = [] <;> simp [hnx]
    refine ⟨hne, ?_, ?_⟩
    · rw [hdb1]
      exact List.mem_append_right _ (List.mem_singleton.mpr rfl)
    · intro now2 hnow2
      rw [hdb1]
      unfold get_current_user
      have hsess : (db.sessions ++
          [(⟨newSid, row.id, now + cfg.SESSION_TTL⟩ : SessionRow)]).find?
            (fun s => s.session_id == newSid) =
          some ⟨newSid, row.id, now + cfg.SESSION_TTL⟩ := by
        rw [find?_append_of_none]
        · exact List.find?_cons_of_pos _ (by simp)
        · rw [List.find?_eq_none]
          intro s hs
          simpa using hfresh s hs
      simp only [hsess]
      rw [if_neg (by omega)]
      exact find?_id_of_nodup db.users row (List.mem_of_find?_eq_some hfind) hnd
  · rintro (hnone | ⟨row, hfind, hne⟩)
    · unfold idp_login
      simp [hnone]
    · unfold idp_login
      simp only [hfind]
      rw [if_pos hne]

/-- Claim C8 witness: the seeded admin user logs in with the correct
password at time 0 and the fresh session resolves to that user at
time 100. -/
theorem idp_login_correct_witness :
    (idp_login demoCfg demoDb 0 (str "sid9") (str "admin") (str "password") none).1 ≠
      .errorPage 401 ∧
    get_current_user
      (idp_login demoCfg demoDb 0 (str "sid9") (str "admin") (str "password") none).2
      100 (some (str "sid9")) = some demoUser := by
  have h := (idp_login_correct demoCfg demoDb 0 (str "sid9") (str "admin")
    (str "password") none).1 demoUser (by decide) (by decide) (by decide) (by decide)
  exact ⟨h.1, h.2.2 100 (by decide)⟩

end IdP
